import Mathlib

/-!
Verification of the observability emission core (OTel layer):
configuration resolution (`otelConfig.ts`), the buffering/replay state
machine of the node service (`NodeOTelService`), the no-op service, and
the diagnostic span-exporter wrapper.

Machine integers do not occur in the modelled code paths; strings are
modelled as Lean `String`, JS objects keyed by strings as association
lists or `String → Option String` functions, and `undefined` as `Option`.
-/

namespace OTel

/-- JS nullish coalescing `a ?? b` on optional values: the left operand wins
whenever it is defined (also when it is the empty string or `false`). -/
def jsCoalesce (a b : Option α) : Option α :=
  match a with
  | some x => some x
  | none => b

/-- JS truthiness of a `string | undefined` value: `undefined` and the empty
string are falsy, every other string is truthy (`!!env[k]`). -/
def jsTruthy (o : Option String) : Bool :=
  match o with
  | some s => s != ""
  | none => false

/-- `envBool` from `otelConfig.ts`: `undefined` stays undefined; a defined
value maps to `true` exactly when it is the string `"true"` or `"1"`,
and to `false` otherwise. -/
def envBool (val : Option String) : Option Bool :=
  match val with
  | none => none
  | some s => some (s == "true" || s == "1")

/-! ### URL model

`parseOtlpEndpoint` calls the WHATWG `new URL(...)` constructor and uses
only `url.origin` and `url.href`. The following is a model of that
constructor restricted to absolute `http`/`https` URLs of the shape
`scheme://host[:port][/path...]` (the only shapes the endpoint strings
take): parse failure models the constructor throwing. -/

structure ParsedUrl where
  scheme : String
  host : String
  port : Option Nat
  /-- Path, query and fragment exactly as written (possibly empty). -/
  pathQuery : String
deriving Repr, DecidableEq

/-- Default port of the scheme, dropped from `origin`/`href` by WHATWG
normalization. -/
def defaultPortOf (scheme : String) : Nat :=
  if scheme == "https" then 443 else 80

/-- Decimal digits to a number. -/
def digitsToNat (cs : List Char) : Nat :=
  cs.foldl (fun n c => n * 10 + (c.toNat - 48)) 0

/-- Split `host[:port]`; an empty host or a non-numeric or empty port makes
the URL constructor throw. -/
def parseAuthority (auth : List Char) : Option (String × Option Nat) :=
  let host := auth.takeWhile (fun c => c != ':')
  let rest := auth.dropWhile (fun c => c != ':')
  if host.isEmpty then none
  else
    match rest with
    | [] => some (String.mk host, none)
    | _ :: portCs =>
      if !portCs.isEmpty && portCs.all (fun c => c.isDigit) then
        some (String.mk host, some (digitsToNat portCs))
      else none

/-- Characters that terminate the authority component. -/
def isAuthorityEnd (c : Char) : Bool :=
  c == '/' || c == '?' || c == '#'

/-- Model of `new URL(s)` for absolute http/https URLs: the scheme ends at
the first `:`, which must be followed by `//`. -/
def parseUrl (s : String) : Option ParsedUrl :=
  let cs := s.toList
  let scheme := String.mk (cs.takeWhile (fun c => c != ':'))
  match cs.dropWhile (fun c => c != ':') with
  | ':' :: '/' :: '/' :: remainder =>
    if scheme == "http" || scheme == "https" then
      let authCs := remainder.takeWhile (fun c => !isAuthorityEnd c)
      let restCs := remainder.dropWhile (fun c => !isAuthorityEnd c)
      match parseAuthority authCs with
      | some (host, port) => some ⟨scheme, host, port, String.mk restCs⟩
      | none => none
    else none
  | _ => none

/-- `url.origin`: scheme, host, and the port unless it is the scheme's
default. -/
def ParsedUrl.origin (u : ParsedUrl) : String :=
  u.scheme ++ "://" ++ u.host ++
    (match u.port with
     | some p => if p == defaultPortOf u.scheme then "" else ":" ++ toString p
     | none => "")

/-- `url.href`: the full normalized reference; the pathname defaults to
`"/"` when the input had none. -/
def ParsedUrl.href (u : ParsedUrl) : String :=
  u.origin ++
    (match u.pathQuery.toList with
     | [] => "/"
     | '/' :: _ => u.pathQuery
     | _ => "/" ++ u.pathQuery)

/-- Drop one leading quote character (`"` or `'`), as one application of the
regex alternative `^["']` in `raw.replace(...)`. -/
def dropLeadingQuote : List Char → List Char
  | c :: rest => if c == '"' || c == '\'' then rest else c :: rest
  | [] => []

/-- `raw.replace(/^["']|["']$/g, '')`: strip at most one wrapping quote
character from each end. -/
def stripWrappingQuotes (s : String) : String :=
  let l1 := dropLeadingQuote s.toList
  String.mk ((dropLeadingQuote l1.reverse).reverse)

inductive OtlpProtocol
  | grpc
  | http
deriving Repr, DecidableEq

/-- `parseOtlpEndpoint` from `otelConfig.ts`: a falsy (empty) raw value and
an unparseable URL both yield `undefined`; for gRPC the origin is kept,
for HTTP the full href. -/
def parseOtlpEndpoint (raw : String) (protocol : OtlpProtocol) : Option String :=
  if raw == "" then none
  else
    let trimmed := stripWrappingQuotes raw
    match parseUrl trimmed with
    | some url =>
      some (match protocol with
            | .grpc => url.origin
            | .http => url.href)
    | none => none

/-- Overwrite-or-append on an association list, the JS object assignment
`result[key] = value` (first insertion position kept, value updated). -/
def recordSet (m : List (String × String)) (k v : String) : List (String × String) :=
  if m.any (fun kv => kv.1 == k) then
    m.map (fun kv => if kv.1 == k then (k, v) else kv)
  else m ++ [(k, v)]

/-- Split a character list at every occurrence of `sep`, the semantics of
`String.prototype.split` with a one-character separator. -/
def splitOnChar (sep : Char) : List Char → List (List Char)
  | [] => [[]]
  | c :: rest =>
    let r := splitOnChar sep rest
    if c == sep then [] :: r
    else
      match r with
      | h :: t => (c :: h) :: t
      | [] => [[c]]

/-- Whitespace trim from both ends (`String.prototype.trim`). -/
def trimChars (cs : List Char) : List Char :=
  ((cs.dropWhile Char.isWhitespace).reverse.dropWhile Char.isWhitespace).reverse

/-- One pair of the `OTEL_RESOURCE_ATTRIBUTES` string: kept only when `=`
occurs at a positive index and the trimmed key is nonempty. -/
def parseResourceAttributePair (acc : List (String × String)) (cs : List Char) :
    List (String × String) :=
  match cs.findIdx? (fun c => c == '=') with
  | some i =>
    if i > 0 then
      let key := String.mk (trimChars (cs.take i))
      let value := String.mk (trimChars (cs.drop (i + 1)))
      if key == "" then acc else recordSet acc key value
    else acc
  | none => acc

/-- `parseResourceAttributes` from `otelConfig.ts`. -/
def parseResourceAttributes (raw : Option String) : List (String × String) :=
  match raw with
  | none => []
  | some r =>
    if r == "" then []
    else (splitOnChar ',' r.toList).foldl parseResourceAttributePair []

inductive OTelExporterType
  | otlpGrpc
  | otlpHttp
  | console
  | file
deriving Repr, DecidableEq

structure OTelConfig where
  enabled : Bool
  exporterType : OTelExporterType
  otlpEndpoint : String
  otlpProtocol : OtlpProtocol
  captureContent : Bool
  fileExporterPath : Option String
  logLevel : String
  httpInstrumentation : Bool
  serviceName : String
  serviceVersion : String
  sessionId : String
  resourceAttributes : List (String × String)
deriving Repr, DecidableEq

structure OTelConfigInput where
  env : String → Option String
  settingEnabled : Option Bool := none
  settingExporterType : Option OTelExporterType := none
  settingOtlpEndpoint : Option String := none
  settingCaptureContent : Option Bool := none
  settingOutfile : Option String := none
  extensionVersion : String
  sessionId : String
  vscodeTelemetryLevel : Option String := none

/-- `createDisabledConfig` from `otelConfig.ts`. -/
def createDisabledConfig (input : OTelConfigInput) : OTelConfig where
  enabled := false
  exporterType := .otlpHttp
  otlpEndpoint := ""
  otlpProtocol := .http
  captureContent := false
  fileExporterPath := none
  logLevel := "info"
  httpInstrumentation := false
  serviceName := "copilot-chat"
  serviceVersion := input.extensionVersion
  sessionId := input.sessionId
  resourceAttributes := []

/-- `resolveOTelConfig` from `otelConfig.ts`, line by line. -/
def resolveOTelConfig (input : OTelConfigInput) : OTelConfig :=
  let env := input.env
  -- Kill switch: respect the host telemetry level
  if input.vscodeTelemetryLevel == some "off" then createDisabledConfig input
  else
    let enabled := (envBool (env "COPILOT_OTEL_ENABLED")).getD
      (input.settingEnabled.getD (jsTruthy (env "OTEL_EXPORTER_OTLP_ENDPOINT")))
    if !enabled then createDisabledConfig input
    else
      let rawProtocol := jsCoalesce (env "OTEL_EXPORTER_OTLP_PROTOCOL") (env "COPILOT_OTEL_PROTOCOL")
      let protocol : OtlpProtocol := if rawProtocol == some "grpc" then .grpc else .http
      let rawEndpoint := (jsCoalesce (env "COPILOT_OTEL_ENDPOINT")
        (jsCoalesce (env "OTEL_EXPORTER_OTLP_ENDPOINT") input.settingOtlpEndpoint)).getD
        "http://localhost:4318"
      let otlpEndpoint := (parseOtlpEndpoint rawEndpoint protocol).getD "http://localhost:4318"
      let fileExporterPath := jsCoalesce (env "COPILOT_OTEL_FILE_EXPORTER_PATH") input.settingOutfile
      let exporterType : OTelExporterType :=
        if jsTruthy fileExporterPath then .file
        else
          match input.settingExporterType with
          | some t => t
          | none =>
            match protocol with
            | .grpc => .otlpGrpc
            | .http => .otlpHttp
      let captureContent := (envBool (env "COPILOT_OTEL_CAPTURE_CONTENT")).getD
        (input.settingCaptureContent.getD false)
      let logLevel := (env "COPILOT_OTEL_LOG_LEVEL").getD "info"
      let httpInstrumentation := (envBool (env "COPILOT_OTEL_HTTP_INSTRUMENTATION")).getD false
      let serviceName := (env "OTEL_SERVICE_NAME").getD "copilot-chat"
      let resourceAttributes := parseResourceAttributes (env "OTEL_RESOURCE_ATTRIBUTES")
      { enabled := true
        exporterType
        otlpEndpoint
        otlpProtocol := protocol
        captureContent
        fileExporterPath
        logLevel
        httpInstrumentation
        serviceName
        serviceVersion := input.extensionVersion
        sessionId := input.sessionId
        resourceAttributes }

/-! ### NodeOTelService model

The buffering/replay state machine of `NodeOTelService`. Readiness is one
flag: `_tracer`, `_meter` and `_logger` are assigned in one synchronous
stretch of `_initialize` (no suspension point between the assignments), so
the three definedness checks coincide. Buffered closures are represented by
the call they capture; effects on the backend (instrument creation, metric
records, log emissions, span starts) are an explicit event list. -/

/-- The kind of a metric instrument created through the meter. -/
inductive InstrumentKind
  | histogram
  | counter
deriving Repr, DecidableEq

/-- A closure pushed onto `_buffer` while the SDK is not ready, identified
by the call whose arguments it captured. -/
inductive BufferedCall
  | startSpan (name : String)
  | recordMetric (name : String) (value : Int)
  | incrementCounter (name : String) (value : Int)
  | emitLogRecord (body : String)
deriving Repr, DecidableEq

/-- An observable effect on the telemetry backend. -/
inductive Effect
  | spanStarted (name : String)
  | createInstrument (name : String) (kind : InstrumentKind)
  | histogramRecord (name : String) (value : Int)
  | counterAdd (name : String) (value : Int)
  | logEmit (body : String)
  | diagErrorLogged
deriving Repr, DecidableEq

/-- Mutable state of one `NodeOTelService` instance: `ready` is the
definedness of `_tracer`/`_meter`/`_logger` (and `_initialized`),
`initFailed` is `_initFailed`, `buffer` is `_buffer`, and
`histograms`/`counters` are the key sets of the two instrument caches in
insertion order. -/
structure ServiceState where
  ready : Bool
  initFailed : Bool
  buffer : List BufferedCall
  histograms : List String
  counters : List String
deriving Repr, DecidableEq

/-- `NodeOTelService._MAX_BUFFER_SIZE`. -/
def MAX_BUFFER_SIZE : Nat := 1000

/-- State right after the constructor ran (before `_initialize` completes). -/
def initialState : ServiceState :=
  { ready := false, initFailed := false, buffer := [], histograms := [], counters := [] }

/-- The handle value `startSpan` returns to its caller. -/
inductive HandleKind
  | noop
  | buffered
  | real
deriving Repr, DecidableEq

namespace NodeOTelService

/-- `NodeOTelService.startSpan`. -/
def startSpan (s : ServiceState) (name : String) : ServiceState × HandleKind × List Effect :=
  if !s.ready then
    if s.initFailed || decide (s.buffer.length ≥ MAX_BUFFER_SIZE) then (s, .noop, [])
    else ({ s with buffer := s.buffer ++ [.startSpan name] }, .buffered, [])
  else (s, .real, [.spanStarted name])

/-- `NodeOTelService.recordMetric`. -/
def recordMetric (s : ServiceState) (name : String) (value : Int) : ServiceState × List Effect :=
  if !s.ready then
    if !s.initFailed && decide (s.buffer.length < MAX_BUFFER_SIZE) then
      ({ s with buffer := s.buffer ++ [.recordMetric name value] }, [])
    else (s, [])
  else
    if s.histograms.contains name then (s, [.histogramRecord name value])
    else ({ s with histograms := s.histograms ++ [name] },
          [.createInstrument name .histogram, .histogramRecord name value])

/-- `NodeOTelService.incrementCounter` (the `value = 1` default is supplied
by the caller in this model). -/
def incrementCounter (s : ServiceState) (name : String) (value : Int) : ServiceState × List Effect :=
  if !s.ready then
    if !s.initFailed && decide (s.buffer.length < MAX_BUFFER_SIZE) then
      ({ s with buffer := s.buffer ++ [.incrementCounter name value] }, [])
    else (s, [])
  else
    if s.counters.contains name then (s, [.counterAdd name value])
    else ({ s with counters := s.counters ++ [name] },
          [.createInstrument name .counter, .counterAdd name value])

/-- `NodeOTelService.emitLogRecord`. -/
def emitLogRecord (s : ServiceState) (body : String) : ServiceState × List Effect :=
  if !s.ready then
    if !s.initFailed && decide (s.buffer.length < MAX_BUFFER_SIZE) then
      ({ s with buffer := s.buffer ++ [.emitLogRecord body] }, [])
    else (s, [])
  else (s, [.logEmit body])

/-- Invoking one buffered closure once the SDK is ready: the `startSpan`
closure runs `_createSpan` and replays the handle, the others re-enter the
public method. -/
def runBufferedCall (s : ServiceState) (c : BufferedCall) : ServiceState × List Effect :=
  match c with
  | .startSpan name => let (s', _, e) := startSpan s name; (s', e)
  | .recordMetric name value => recordMetric s name value
  | .incrementCounter name value => incrementCounter s name value
  | .emitLogRecord body => emitLogRecord s body

/-- `NodeOTelService._initialize`, line 182: `BATCH_SIZE = 50`. -/
def BATCH_SIZE : Nat := 50

/-- The inner loop `for (const fn of chunk) { try { fn(); } catch { } }`,
generic in the executor: `exec` returning `none` models the closure
throwing, in which case the exception is swallowed and the state is kept. -/
def runDrainChunk (exec : ServiceState → BufferedCall → Option (ServiceState × List Effect))
    (s : ServiceState) : List BufferedCall → ServiceState × List Effect
  | [] => (s, [])
  | c :: rest =>
    match exec s c with
    | some (s', e) =>
      let (s'', e') := runDrainChunk exec s' rest
      (s'', e ++ e')
    | none => runDrainChunk exec s rest

/-- The chunked drain loop of `_initialize` (lines 181–192): slices of
`BATCH_SIZE`, one yield to the event loop between consecutive chunks
(`i + BATCH_SIZE < batch.length`). The third component counts the yields. -/
def drainBuffer (exec : ServiceState → BufferedCall → Option (ServiceState × List Effect))
    (s : ServiceState) (batch : List BufferedCall) : ServiceState × List Effect × Nat :=
  if batch.isEmpty then (s, [], 0)
  else
    let chunk := batch.take BATCH_SIZE
    let rest := batch.drop BATCH_SIZE
    let (s', effs) := runDrainChunk exec s chunk
    if rest.isEmpty then (s', effs, 0)
    else
      let (s'', effs', yields) := drainBuffer exec s' rest
      (s'', effs ++ effs', yields + 1)
termination_by batch.length
decreasing_by
  simp only [List.length_drop, BATCH_SIZE]
  have hb : batch ≠ [] := by simpa using (by assumption : ¬batch.isEmpty = true)
  have : 0 < batch.length := List.length_pos.mpr hb
  omega

/-- The executor of the real buffered closures (which are total in this
model; they never throw). -/
def execBuffered (s : ServiceState) (c : BufferedCall) : Option (ServiceState × List Effect) :=
  some (runBufferedCall s c)

/-- Outcome of the awaited backend setup of `_initialize` (dynamic imports,
exporter construction, provider construction): `failure` models any of
those awaits throwing. -/
inductive InitOutcome
  | success
  | failure (err : String)
deriving Repr, DecidableEq

/-- The `try` block of `_initialize`, applied to the state at completion
time: on success the providers are assigned (`ready := true`), the buffer
is spliced out and drained in chunks; a setup failure is re-raised to the
surrounding `catch`. -/
def initializeTryBody (outcome : InitOutcome) (s : ServiceState) :
    Except String (ServiceState × List Effect × Nat) :=
  match outcome with
  | .failure err => .error err
  | .success =>
    let batch := s.buffer
    .ok (drainBuffer execBuffered { s with ready := true, buffer := [] } batch)

/-- `NodeOTelService._initialize`: the early return when already
initialized or disabled, the `try` body, and the `catch` that marks the
permanent failure, discards the buffer, and logs a diagnostic — so the
promise the constructor ignores never rejects. -/
def initializeOnce (config : OTelConfig) (outcome : InitOutcome) (s : ServiceState) :
    ServiceState × List Effect × Nat :=
  if s.ready || !config.enabled then (s, [], 0)
  else
    match initializeTryBody outcome s with
    | .ok r => r
    | .error _ => ({ s with initFailed := true, buffer := [] }, [.diagErrorLogged], 0)

/-- One public emission call, as issued by application code. -/
inductive Call
  | startSpan (name : String)
  | recordMetric (name : String) (value : Int)
  | incrementCounter (name : String) (value : Int)
  | emitLogRecord (body : String)
deriving Repr, DecidableEq

/-- Dispatch of one public call on the service. -/
def stepCall (s : ServiceState) (c : Call) : ServiceState × List Effect :=
  match c with
  | .startSpan name => let (s', _, e) := startSpan s name; (s', e)
  | .recordMetric name value => recordMetric s name value
  | .incrementCounter name value => incrementCounter s name value
  | .emitLogRecord body => emitLogRecord s body

/-- A sequence of public calls, accumulating backend effects. -/
def applyCalls (s : ServiceState) : List Call → ServiceState × List Effect
  | [] => (s, [])
  | c :: rest =>
    let (s', e) := stepCall s c
    let (s'', e') := applyCalls s' rest
    (s'', e ++ e')

end NodeOTelService

/-! ### startActiveSpan model

`startActiveSpan` receives a callback; the model abstracts the callback by
the operations it performs on the handle it is handed and by how it
finishes (a normal value, or a thrown error / rejected promise). The
returned operation list is everything the handle received: first the
callback's own calls, then whatever the service appends. -/

/-- Operations callable on an `ISpanHandle`. -/
inductive SpanOp
  | setAttribute (key : String)
  | setStatus (code : Nat)
  | recordException
  | endSpan
deriving Repr, DecidableEq

/-- A callback passed to `startActiveSpan`. -/
structure SpanFn (T : Type) where
  ops : List SpanOp
  outcome : Except String T

/-- `try { ... } finally { ... }`: the body's outcome is kept (normal or
thrown) and the finalizer's handle calls are appended on both exit paths. -/
def tryFinallyOps (body : Except String T × List SpanOp) (finalizer : List SpanOp) :
    Except String T × List SpanOp :=
  (body.1, body.2 ++ finalizer)

/-- `NodeOTelService.startActiveSpan`: the non-ready branch wraps
`await fn(handle)` in `try/finally { handle.end() }`, and the tracer branch
does the same inside `tracer.startActiveSpan`'s callback. -/
def NodeOTelService.startActiveSpan (ready : Bool) (fn : SpanFn T) :
    Except String T × List SpanOp :=
  if !ready then tryFinallyOps (fn.outcome, fn.ops) [.endSpan]
  else tryFinallyOps (fn.outcome, fn.ops) [.endSpan]

/-- `NoopOTelService.startActiveSpan`: `return fn(noopSpan)` — the callback
is invoked with the shared no-op handle and its result returned; the
service itself never calls `end()` on the handle. -/
def NoopOTelService.startActiveSpan (fn : SpanFn T) : Except String T × List SpanOp :=
  (fn.outcome, fn.ops)

/-! ### DiagnosticSpanExporter model -/

structure ReadableSpan where
  name : String
deriving Repr, DecidableEq

/-- `ExportResult` of `@opentelemetry/core`; code 0 is SUCCESS. -/
structure ExportResult where
  code : Nat
  error : Option String := none
deriving Repr, DecidableEq

/-- A console line emitted by the wrapper. -/
inductive DiagLog
  | info (exporterType : String) (spanCount : Nat)
  | warn (exporterType : String) (error : Option String)
deriving Repr, DecidableEq

def DiagLog.isInfo : DiagLog → Bool
  | .info _ _ => true
  | .warn _ _ => false

def DiagLog.isWarn : DiagLog → Bool
  | .info _ _ => false
  | .warn _ _ => true

/-- Mutable state of the wrapper: `_firstSuccessLogged`. -/
structure DiagState where
  firstSuccessLogged : Bool
deriving Repr, DecidableEq

/-- A promise value: either the very promise obtained from the inner
exporter's method, or a fresh already-resolved promise
(`?? Promise.resolve()`). -/
inductive PromiseVal
  | fromInner (token : Nat)
  | freshResolved
deriving Repr, DecidableEq

/-- The inner exporter's optional `shutdown`/`forceFlush`, each identified
by the promise its invocation returns. -/
structure InnerLifecycle where
  shutdownPromise : Option Nat
  forceFlushPromise : Option Nat

namespace DiagnosticSpanExporter

/-- The result-callback body of `DiagnosticSpanExporter.export`: inspect
the inner result code, log accordingly, and pass the result through. -/
def exportCallback (exporterType : String) (st : DiagState) (spanCount : Nat)
    (result : ExportResult) : DiagState × List DiagLog × ExportResult :=
  if result.code = 0 then
    if !st.firstSuccessLogged then
      ({ firstSuccessLogged := true }, [.info exporterType spanCount], result)
    else (st, [], result)
  else (st, [.warn exporterType result.error], result)

/-- `export`: delegate the span batch to the inner exporter unchanged, then
run the diagnostic callback on the inner result. The inner exporter is a
response function from the delegated batch to its result. -/
def exportSpans (inner : List ReadableSpan → ExportResult) (exporterType : String)
    (st : DiagState) (spans : List ReadableSpan) : DiagState × List DiagLog × ExportResult :=
  exportCallback exporterType st spans.length (inner spans)

/-- A sequence of export calls through one wrapper instance, accumulating
the emitted log lines. -/
def runExports (inner : List ReadableSpan → ExportResult) (exporterType : String)
    (st : DiagState) : List (List ReadableSpan) → DiagState × List DiagLog
  | [] => (st, [])
  | spans :: rest =>
    let (st', logs, _) := exportSpans inner exporterType st spans
    let (st'', logs') := runExports inner exporterType st' rest
    (st'', logs ++ logs')

/-- `shutdown(): return this._inner.shutdown?.() ?? Promise.resolve()`. -/
def shutdown (i : InnerLifecycle) : PromiseVal :=
  match i.shutdownPromise with
  | some t => .fromInner t
  | none => .freshResolved

/-- `forceFlush(): return this._inner.forceFlush?.() ?? Promise.resolve()`. -/
def forceFlush (i : InnerLifecycle) : PromiseVal :=
  match i.forceFlushPromise with
  | some t => .fromInner t
  | none => .freshResolved

end DiagnosticSpanExporter

/-! ### Auxiliary definitions for the statements -/

/-- The instruments created along an effect trace, as (name, kind) pairs in
creation order. -/
def createdPairs (effs : List Effect) : List (String × InstrumentKind) :=
  effs.filterMap (fun e =>
    match e with
    | .createInstrument n k => some (n, k)
    | _ => none)

/-- A service whose initialization has completed successfully and that has
not created any instrument yet. -/
def readyState : ServiceState :=
  { ready := true, initFailed := false, buffer := [], histograms := [], counters := [] }

/-- A not-yet-ready service whose buffer is exactly at capacity. -/
def fullState : ServiceState :=
  { ready := false, initFailed := false
    buffer := List.replicate MAX_BUFFER_SIZE (.emitLogRecord "x")
    histograms := [], counters := [] }

/-- A not-yet-ready service with one buffered call, used to exhibit the
discard on initialization failure. -/
def bufferedState : ServiceState :=
  { ready := false, initFailed := false, buffer := [.recordMetric "m" 5]
    histograms := [], counters := [] }

/-- An enabled configuration (as resolved for an OTLP/HTTP backend). -/
def sampleEnabledConfig : OTelConfig :=
  { enabled := true, exporterType := .otlpHttp, otlpEndpoint := "http://localhost:4318/"
    otlpProtocol := .http, captureContent := false, fileExporterPath := none
    logLevel := "info", httpInstrumentation := false, serviceName := "copilot-chat"
    serviceVersion := "1.0.0", sessionId := "session", resourceAttributes := [] }

/-- Executor that records each invoked buffered call in order (used to state
the visit order of the chunked drain). -/
def execVisit : ServiceState → BufferedCall → Option (ServiceState × List Effect) :=
  fun s c => some ({ s with buffer := s.buffer ++ [c] }, [])

/-- Executor in which the single closure `bad` throws and every other
closure runs normally. -/
def execThrowOn (bad : BufferedCall) :
    ServiceState → BufferedCall → Option (ServiceState × List Effect) :=
  fun s c => if c == bad then none else some (NodeOTelService.runBufferedCall s c)

/-- The `enabled` resolution as the C5 claim words it: first defined of the
boolean environment override, the host-setting boolean, and the PRESENCE of
the standard endpoint variable — a variable defined as the empty string is
present. Written from the claim, to be compared with `resolveOTelConfig`. -/
def enabledPerClaimC5 (input : OTelConfigInput) : Bool :=
  (envBool (input.env "COPILOT_OTEL_ENABLED")).getD
    (input.settingEnabled.getD (input.env "OTEL_EXPORTER_OTLP_ENDPOINT").isSome)

/-- Environment where the standard endpoint variable is defined as the
empty string and nothing else is set. -/
def envEmptyEndpoint : String → Option String :=
  fun k => if k == "OTEL_EXPORTER_OTLP_ENDPOINT" then some "" else none

def inputC5 : OTelConfigInput :=
  { env := envEmptyEndpoint, extensionVersion := "1.0.0", sessionId := "session" }

/-- Environment with the dedicated enabled override set to `"false"`. -/
def envOverrideFalse : String → Option String :=
  fun k => if k == "COPILOT_OTEL_ENABLED" then some "false" else none

/-- Override = false while the host setting enables OTel. -/
def inputOverrideFalse : OTelConfigInput :=
  { env := envOverrideFalse, settingEnabled := some true
    extensionVersion := "1.0.0", sessionId := "session" }

/-- Environment where BOTH protocol variables are defined and disagree:
the standard variable says http, the application-specific override says
grpc. -/
def envBothProtocols : String → Option String :=
  fun k =>
    if k == "COPILOT_OTEL_ENABLED" then some "true"
    else if k == "OTEL_EXPORTER_OTLP_PROTOCOL" then some "http"
    else if k == "COPILOT_OTEL_PROTOCOL" then some "grpc"
    else none

def inputBothProtocols : OTelConfigInput :=
  { env := envBothProtocols, extensionVersion := "1.0.0", sessionId := "session" }

/-- Environment with the enabled override set to `"yes"` (not `"true"` or
`"1"`). -/
def envYes : String → Option String :=
  fun k => if k == "COPILOT_OTEL_ENABLED" then some "yes" else none

def inputYes : OTelConfigInput :=
  { env := envYes, settingEnabled := some true
    extensionVersion := "1.0.0", sessionId := "session" }

/-- A callback that performs no handle operation and returns normally. -/
def fnPure : SpanFn Nat := { ops := [], outcome := .ok 0 }

/-- Invariant tying an effect trace to the instrument caches: every
instrument created along the trace is cached under its kind, and no
(name, kind) pair was created twice. -/
def CacheInv (s : ServiceState) (effs : List Effect) : Prop :=
  (∀ n, (n, InstrumentKind.histogram) ∈ createdPairs effs → n ∈ s.histograms)
  ∧ (∀ n, (n, InstrumentKind.counter) ∈ createdPairs effs → n ∈ s.counters)
  ∧ (createdPairs effs).Nodup

/-- An inner exporter exposing both lifecycle methods. -/
def sampleLifecycle : InnerLifecycle :=
  { shutdownPromise := some 7, forceFlushPromise := some 8 }

/-! ## Theorems -/

/-- C4: endpoint normalization depends on the resolved protocol — whenever
the (quote-stripped) raw endpoint parses as a URL, the gRPC resolution is
its origin (scheme+host+port, path discarded) and the HTTP resolution its
full href (path included); in particular `"http://collector:4317/v1/traces"`
resolves to `"http://collector:4317"` under grpc and to
`"http://collector:4317/v1/traces"` under http. -/
theorem C4_endpoint_normalization_by_protocol :
    (∀ (raw : String) (u : ParsedUrl), parseUrl (stripWrappingQuotes raw) = some u →
      parseOtlpEndpoint raw .grpc = some u.origin ∧ parseOtlpEndpoint raw .http = some u.href)
    ∧ parseOtlpEndpoint "http://collector:4317/v1/traces" .grpc = some "http://collector:4317"
    ∧ parseOtlpEndpoint "http://collector:4317/v1/traces" .http
        = some "http://collector:4317/v1/traces" := by
  refine ⟨fun raw u h => ?_, by decide, by decide⟩
  by_cases hr : raw = ""
  · subst hr
    have hnone : parseUrl (stripWrappingQuotes "") = none := by decide
    rw [hnone] at h
    exact Option.noConfusion h
  · have hb : (raw == "") = false := beq_eq_false_iff_ne.mpr hr
    constructor <;> simp [parseOtlpEndpoint, hb, h]

/-- Witness for C4 at a concrete endpoint. -/
theorem C4_endpoint_normalization_witness :
    parseUrl (stripWrappingQuotes "http://collector:9999/a/b")
      = some ⟨"http", "collector", some 9999, "/a/b"⟩
    ∧ parseOtlpEndpoint "http://collector:9999/a/b" .grpc
        = some (ParsedUrl.origin ⟨"http", "collector", some 9999, "/a/b"⟩) :=
  ⟨by decide,
   (C4_endpoint_normalization_by_protocol.1 "http://collector:9999/a/b" _ (by decide)).1⟩

/-- C5 counterexample: the claim reads the last fallback of `enabled` as
PRESENCE of the standard endpoint variable, but the code tests JS
truthiness (`!!env[...]`): with `OTEL_EXPORTER_OTLP_ENDPOINT` defined as
the empty string and no override or setting, the claim's reading yields
`true` while the code resolves a disabled configuration. -/
theorem C5_enabled_presence_counterexample :
    inputC5.vscodeTelemetryLevel ≠ some "off"
    ∧ inputC5.env "OTEL_EXPORTER_OTLP_ENDPOINT" = some ""
    ∧ envBool (inputC5.env "COPILOT_OTEL_ENABLED") = none
    ∧ inputC5.settingEnabled = none
    ∧ enabledPerClaimC5 inputC5 = true
    ∧ (resolveOTelConfig inputC5).enabled = false :=
  ⟨by decide, rfl, rfl, rfl, rfl, by decide⟩

/-- C5 (amended): when the host telemetry level is `"off"` resolution
returns the disabled configuration; otherwise `enabled` is the first
defined of the dedicated boolean environment override, the host-setting
boolean, and presence WITH A NON-EMPTY VALUE of the standard endpoint
variable; with override `"false"` and host setting `true` the resolved
`enabled` is false. -/
theorem C5_enabled_resolution (input : OTelConfigInput) :
    (input.vscodeTelemetryLevel = some "off" →
      resolveOTelConfig input = createDisabledConfig input)
    ∧ (input.vscodeTelemetryLevel ≠ some "off" →
      (resolveOTelConfig input).enabled =
        (envBool (input.env "COPILOT_OTEL_ENABLED")).getD
          (input.settingEnabled.getD (jsTruthy (input.env "OTEL_EXPORTER_OTLP_ENDPOINT"))))
    ∧ inputOverrideFalse.env "COPILOT_OTEL_ENABLED" = some "false"
    ∧ inputOverrideFalse.settingEnabled = some true
    ∧ (resolveOTelConfig inputOverrideFalse).enabled = false := by
  refine ⟨fun h => ?_, fun h => ?_, rfl, rfl, by decide⟩
  · simp [resolveOTelConfig, h]
  · have hb : (input.vscodeTelemetryLevel == some "off") = false := by
      simpa using h
    cases hE : (envBool (input.env "COPILOT_OTEL_ENABLED")).getD
        (input.settingEnabled.getD (jsTruthy (input.env "OTEL_EXPORTER_OTLP_ENDPOINT"))) <;>
      simp [resolveOTelConfig, hb, hE, createDisabledConfig]

/-- Witness for C5 at the override-vs-setting input. -/
theorem C5_enabled_resolution_witness :
    inputOverrideFalse.vscodeTelemetryLevel ≠ some "off"
    ∧ (resolveOTelConfig inputOverrideFalse).enabled =
      (envBool (inputOverrideFalse.env "COPILOT_OTEL_ENABLED")).getD
        (inputOverrideFalse.settingEnabled.getD
          (jsTruthy (inputOverrideFalse.env "OTEL_EXPORTER_OTLP_ENDPOINT"))) :=
  ⟨by decide, (C5_enabled_resolution inputOverrideFalse).2.1 (by decide)⟩

/-- C6: with both protocol variables defined — `COPILOT_OTEL_PROTOCOL=grpc`
and `OTEL_EXPORTER_OTLP_PROTOCOL=http` — the code resolves the STANDARD
variable's value (`http`): line 99 of the resolver reads
`env['OTEL_EXPORTER_OTLP_PROTOCOL'] ?? env['COPILOT_OTEL_PROTOCOL']`,
contradicting the claim and the resolver's own precedence doc comment
(`COPILOT_OTEL_*` highest), under which the application-specific override
would win and the resolved protocol would be grpc. -/
theorem C6_standard_protocol_variable_wins :
    inputBothProtocols.env "COPILOT_OTEL_PROTOCOL" = some "grpc"
    ∧ inputBothProtocols.env "OTEL_EXPORTER_OTLP_PROTOCOL" = some "http"
    ∧ (resolveOTelConfig inputBothProtocols).enabled = true
    ∧ (resolveOTelConfig inputBothProtocols).otlpProtocol = .http :=
  ⟨rfl, rfl, by decide, by decide⟩

/-- C10: the boolean environment overrides are strict — a defined value
resolves to `true` exactly when it is `"true"` or `"1"`, and any other
defined value resolves to `false` (not undefined); hence
`COPILOT_OTEL_ENABLED="yes"` yields the disabled configuration even though
the host setting enables OTel. -/
theorem C10_envBool_strict :
    (∀ v : String, envBool (some v) = some ((v == "true") || (v == "1")))
    ∧ envBool none = none
    ∧ envBool (some "yes") = some false
    ∧ envBool (some "TRUE") = some false
    ∧ envBool (some "on") = some false
    ∧ inputYes.settingEnabled = some true
    ∧ resolveOTelConfig inputYes = createDisabledConfig inputYes :=
  ⟨fun v => rfl, rfl, by decide, by decide, by decide, rfl, by decide⟩

/-- C1: when the backend setup of `_initialize` throws, the service moves
to the permanent failed state, the pre-readiness buffer is emptied with
none of its queued operations executed (the only effect is the diagnostic
log line), the error is absorbed by the `catch` (the `try` body's error
never reaches the constructor's ignored promise), and every subsequent
public call on the failed state returns normally with no effect. -/
theorem C1_init_failure_discards_buffer (config : OTelConfig) (e : String)
    (s : ServiceState) (hready : s.ready = false) (hen : config.enabled = true) :
    NodeOTelService.initializeTryBody (.failure e) s = .error e
    ∧ NodeOTelService.initializeOnce config (.failure e) s
        = ({ s with initFailed := true, buffer := [] }, [.diagErrorLogged], 0)
    ∧ (∀ c, NodeOTelService.stepCall { s with initFailed := true, buffer := [] } c
        = ({ s with initFailed := true, buffer := [] }, [])) := by
  refine ⟨rfl, ?_, ?_⟩
  · simp [NodeOTelService.initializeOnce, NodeOTelService.initializeTryBody, hready, hen]
  · intro c
    cases c <;>
      simp [NodeOTelService.stepCall, NodeOTelService.startSpan,
        NodeOTelService.recordMetric, NodeOTelService.incrementCounter,
        NodeOTelService.emitLogRecord, hready]

/-- Witness for C1: a failing initialization over a service holding one
buffered call. -/
theorem C1_init_failure_discards_buffer_witness :
    bufferedState.ready = false ∧ sampleEnabledConfig.enabled = true
    ∧ NodeOTelService.initializeOnce sampleEnabledConfig (.failure "network down") bufferedState
        = ({ bufferedState with initFailed := true, buffer := [] }, [.diagErrorLogged], 0) :=
  ⟨rfl, rfl,
   (C1_init_failure_discards_buffer sampleEnabledConfig "network down" bufferedState rfl rfl).2.1⟩

/-- One public call never grows the buffer beyond the maximum. -/
theorem stepCall_buffer_length_le (s : ServiceState) (c : NodeOTelService.Call)
    (h : s.buffer.length ≤ MAX_BUFFER_SIZE) :
    (NodeOTelService.stepCall s c).1.buffer.length ≤ MAX_BUFFER_SIZE := by
  cases c <;>
    simp only [NodeOTelService.stepCall, NodeOTelService.startSpan,
      NodeOTelService.recordMetric, NodeOTelService.incrementCounter,
      NodeOTelService.emitLogRecord] <;>
    (repeat' split) <;> simp_all [List.length_append] <;> omega

/-- A whole pre-readiness call sequence never grows the buffer beyond the
maximum. -/
theorem applyCalls_buffer_length_le (calls : List NodeOTelService.Call) (s : ServiceState)
    (h : s.buffer.length ≤ MAX_BUFFER_SIZE) :
    (NodeOTelService.applyCalls s calls).1.buffer.length ≤ MAX_BUFFER_SIZE := by
  induction calls generalizing s with
  | nil => simpa [NodeOTelService.applyCalls] using h
  | cons c rest ih =>
    cases hsc : NodeOTelService.stepCall s c with
    | mk s1 e1 =>
      have h1 : s1.buffer.length ≤ MAX_BUFFER_SIZE := by
        have := stepCall_buffer_length_le s c h
        rw [hsc] at this
        exact this
      simpa [NodeOTelService.applyCalls, hsc] using ih s1 h1

/-- C2: the pre-readiness buffer never exceeds the fixed maximum of 1000;
once at capacity (and not ready), every further emission call leaves the
state unchanged and returns normally with no effect (silent drop, no
throw); the successful-initialization path replays exactly the buffered
operations, hence at most the maximum of them. -/
theorem C2_buffer_capacity :
    MAX_BUFFER_SIZE = 1000
    ∧ (∀ calls : List NodeOTelService.Call,
        (NodeOTelService.applyCalls initialState calls).1.buffer.length ≤ MAX_BUFFER_SIZE)
    ∧ (∀ (s : ServiceState) (c : NodeOTelService.Call), s.ready = false →
        MAX_BUFFER_SIZE ≤ s.buffer.length → NodeOTelService.stepCall s c = (s, []))
    ∧ (∀ s : ServiceState, NodeOTelService.initializeTryBody .success s
        = .ok (NodeOTelService.drainBuffer NodeOTelService.execBuffered
            { s with ready := true, buffer := [] } s.buffer)) := by
  refine ⟨rfl,
    fun calls => applyCalls_buffer_length_le calls initialState (by simp [initialState]),
    fun s c hready hfull => ?_, fun s => rfl⟩
  have hnlt : ¬(s.buffer.length < MAX_BUFFER_SIZE) := not_lt.mpr hfull
  cases c <;>
    simp [NodeOTelService.stepCall, NodeOTelService.startSpan,
      NodeOTelService.recordMetric, NodeOTelService.incrementCounter,
      NodeOTelService.emitLogRecord, hready, hfull, hnlt]

/-- Witness for C2 at a concrete full buffer. -/
theorem C2_buffer_capacity_witness :
    fullState.ready = false ∧ MAX_BUFFER_SIZE ≤ fullState.buffer.length
    ∧ NodeOTelService.stepCall fullState (.startSpan "s") = (fullState, []) :=
  ⟨rfl, by simp [fullState],
   C2_buffer_capacity.2.2.1 fullState (.startSpan "s") rfl (by simp [fullState])⟩

/-- The chunk executor over concatenated lists: execution proceeds left to
right across the boundary. -/
theorem runDrainChunk_append
    (exec : ServiceState → BufferedCall → Option (ServiceState × List Effect))
    (s : ServiceState) (a b : List BufferedCall) :
    NodeOTelService.runDrainChunk exec s (a ++ b)
      = ((NodeOTelService.runDrainChunk exec (NodeOTelService.runDrainChunk exec s a).1 b).1,
         (NodeOTelService.runDrainChunk exec s a).2
           ++ (NodeOTelService.runDrainChunk exec
                (NodeOTelService.runDrainChunk exec s a).1 b).2) := by
  induction a generalizing s with
  | nil => simp [NodeOTelService.runDrainChunk]
  | cons c rest ih =>
    simp only [List.cons_append, NodeOTelService.runDrainChunk]
    cases hx : exec s c with
    | none => exact ih s
    | some pr =>
      obtain ⟨s1, e1⟩ := pr
      simp [ih s1, List.append_assoc]

/-- The chunked drain equals the straight sequential execution of the whole
batch, and yields to the event loop exactly `⌈batch.length / 50⌉ - 1`
times. -/
theorem drainBuffer_spec
    (exec : ServiceState → BufferedCall → Option (ServiceState × List Effect))
    (n : Nat) : ∀ (s : ServiceState) (batch : List BufferedCall), batch.length ≤ n →
    NodeOTelService.drainBuffer exec s batch
      = ((NodeOTelService.runDrainChunk exec s batch).1,
         (NodeOTelService.runDrainChunk exec s batch).2,
         if batch.isEmpty then 0
         else (batch.length - 1) / NodeOTelService.BATCH_SIZE) := by
  induction n with
  | zero =>
    intro s batch h
    have hb : batch = [] := List.length_eq_zero.mp (Nat.le_zero.mp h)
    subst hb
    simp [NodeOTelService.drainBuffer, NodeOTelService.runDrainChunk]
  | succ n ih =>
    intro s batch h
    cases batch with
    | nil => simp [NodeOTelService.drainBuffer, NodeOTelService.runDrainChunk]
    | cons hd tl =>
      by_cases hrest : List.drop NodeOTelService.BATCH_SIZE (hd :: tl) = []
      · have hlen : (hd :: tl).length ≤ NodeOTelService.BATCH_SIZE := by
          have := congrArg List.length hrest
          simpa [List.length_drop] using Nat.le_of_sub_eq_zero (by simpa using this)
        have htake : List.take NodeOTelService.BATCH_SIZE (hd :: tl) = hd :: tl :=
          List.take_of_length_le hlen
        have hzero : tl.length / NodeOTelService.BATCH_SIZE = 0 := by
          apply Nat.div_eq_of_lt
          simp only [List.length_cons, NodeOTelService.BATCH_SIZE] at hlen ⊢
          omega
        rcases hx : NodeOTelService.runDrainChunk exec s (hd :: tl) with ⟨s1, e1⟩
        rw [NodeOTelService.drainBuffer]
        simp [hrest, htake, hzero, hx]
      · have hlen : NodeOTelService.BATCH_SIZE < (hd :: tl).length := by
          by_contra hle
          exact hrest (List.drop_eq_nil_of_le (Nat.le_of_not_lt hle))
        have hdroplen : (List.drop NodeOTelService.BATCH_SIZE (hd :: tl)).length ≤ n := by
          have hlen' := h
          simp only [List.length_drop, List.length_cons,
            NodeOTelService.BATCH_SIZE] at hlen hlen' ⊢
          omega
        rcases hchunk : NodeOTelService.runDrainChunk exec s
            (List.take NodeOTelService.BATCH_SIZE (hd :: tl)) with ⟨s1, e1⟩
        have ihd := ih s1 (List.drop NodeOTelService.BATCH_SIZE (hd :: tl)) hdroplen
        rcases hrec : NodeOTelService.drainBuffer exec s1
            (List.drop NodeOTelService.BATCH_SIZE (hd :: tl)) with ⟨s2, e2, y2⟩
        rw [hrec] at ihd
        have hrest' : (List.drop NodeOTelService.BATCH_SIZE (hd :: tl)).isEmpty = false := by
          simpa [List.isEmpty_iff] using hrest
        have hs2 : s2 = (NodeOTelService.runDrainChunk exec s1
            (List.drop NodeOTelService.BATCH_SIZE (hd :: tl))).1 :=
          congrArg (fun t => t.1) ihd
        have he2 : e2 = (NodeOTelService.runDrainChunk exec s1
            (List.drop NodeOTelService.BATCH_SIZE (hd :: tl))).2 :=
          congrArg (fun t => t.2.1) ihd
        have hy2 : y2 = ((List.drop NodeOTelService.BATCH_SIZE (hd :: tl)).length - 1)
            / NodeOTelService.BATCH_SIZE := by
          have := congrArg (fun t => t.2.2) ihd
          simpa [hrest'] using this
        have hsplit := runDrainChunk_append exec s
          (List.take NodeOTelService.BATCH_SIZE (hd :: tl))
          (List.drop NodeOTelService.BATCH_SIZE (hd :: tl))
        rw [List.take_append_drop, hchunk] at hsplit
        have harith : y2 + 1 = ((hd :: tl).length - 1) / NodeOTelService.BATCH_SIZE := by
          rw [hy2]
          simp only [List.length_drop, NodeOTelService.BATCH_SIZE] at hlen ⊢
          have h1 : (hd :: tl).length - 50 - 1 + 50 = (hd :: tl).length - 1 := by omega
          rw [← h1, Nat.add_div_right _ (by omega : (0:Nat) < 50)]
        rw [NodeOTelService.drainBuffer]
        simp only [List.isEmpty_cons, Bool.false_eq_true, if_false, hchunk, hrest', hrec,
          hsplit]
        rw [← hs2, ← he2]
        have harith' : y2 + 1 = tl.length / NodeOTelService.BATCH_SIZE := by
          simpa using harith
        simp [← harith']

/-- One throwing closure is skipped: the drain executes everything else. -/
theorem runDrainChunk_skip
    (exec : ServiceState → BufferedCall → Option (ServiceState × List Effect))
    (bad : BufferedCall) (hbad : ∀ s', exec s' bad = none) :
    ∀ (s : ServiceState) (xs ys : List BufferedCall),
      NodeOTelService.runDrainChunk exec s (xs ++ bad :: ys)
        = NodeOTelService.runDrainChunk exec s (xs ++ ys) := by
  intro s xs ys
  induction xs generalizing s with
  | nil => simp [NodeOTelService.runDrainChunk, hbad s]
  | cons c rest ih =>
    simp only [List.cons_append, NodeOTelService.runDrainChunk]
    cases hx : exec s c with
    | none => exact ih s
    | some pr =>
      obtain ⟨s1, e1⟩ := pr
      simp [ih s1]

/-- The recording executor shows the drain visits each element once in
list order. -/
theorem runDrainChunk_visits (s : ServiceState) (batch : List BufferedCall) :
    (NodeOTelService.runDrainChunk execVisit s batch).1.buffer = s.buffer ++ batch := by
  induction batch generalizing s with
  | nil => simp [NodeOTelService.runDrainChunk]
  | cons c rest ih =>
    simp [NodeOTelService.runDrainChunk, execVisit, ih, List.append_assoc]

/-- C3: on successful initialization the buffered operations are replayed
in chunks of 50 with a yield between consecutive chunks, and the chunked
drain equals the straight sequential replay of the whole batch in original
order (first conjunct); the recording executor confirms every buffered
operation is visited exactly once in order (second conjunct); a throwing
buffered operation is swallowed and the remaining operations still run
(third conjunct); the success path of `_initialize` drains exactly the
pre-readiness buffer (fourth conjunct). -/
theorem C3_buffer_drain_discipline :
    (∀ (exec : ServiceState → BufferedCall → Option (ServiceState × List Effect))
        (s : ServiceState) (batch : List BufferedCall),
      NodeOTelService.drainBuffer exec s batch
        = ((NodeOTelService.runDrainChunk exec s batch).1,
           (NodeOTelService.runDrainChunk exec s batch).2,
           if batch.isEmpty then 0
           else (batch.length - 1) / NodeOTelService.BATCH_SIZE))
    ∧ (∀ (s : ServiceState) (batch : List BufferedCall),
        (NodeOTelService.runDrainChunk execVisit s batch).1.buffer = s.buffer ++ batch)
    ∧ (∀ (exec : ServiceState → BufferedCall → Option (ServiceState × List Effect))
        (bad : BufferedCall), (∀ s', exec s' bad = none) →
        ∀ (s : ServiceState) (xs ys : List BufferedCall),
          NodeOTelService.runDrainChunk exec s (xs ++ bad :: ys)
            = NodeOTelService.runDrainChunk exec s (xs ++ ys))
    ∧ (∀ s : ServiceState, NodeOTelService.initializeTryBody .success s
        = .ok (NodeOTelService.drainBuffer NodeOTelService.execBuffered
            { s with ready := true, buffer := [] } s.buffer)) :=
  ⟨fun exec s batch => drainBuffer_spec exec batch.length s batch le_rfl,
   runDrainChunk_visits, runDrainChunk_skip, fun _ => rfl⟩

/-- Witness for C3: a concrete drain in which one buffered closure throws
and the operations around it still execute. -/
theorem C3_buffer_drain_discipline_witness :
    NodeOTelService.runDrainChunk (execThrowOn (.emitLogRecord "bad")) readyState
        ([.recordMetric "a" 1] ++ BufferedCall.emitLogRecord "bad" :: [.emitLogRecord "ok"])
      = NodeOTelService.runDrainChunk (execThrowOn (.emitLogRecord "bad")) readyState
        ([.recordMetric "a" 1] ++ [.emitLogRecord "ok"]) :=
  C3_buffer_drain_discipline.2.2.1 (execThrowOn (.emitLogRecord "bad"))
    (.emitLogRecord "bad") (fun _ => rfl) readyState
    [.recordMetric "a" 1] [.emitLogRecord "ok"]

/-- One public call preserves the cache invariant (and readiness). -/
theorem cacheInv_step (s : ServiceState) (c : NodeOTelService.Call) (effs : List Effect)
    (hready : s.ready = true) (hinv : CacheInv s effs) :
    CacheInv (NodeOTelService.stepCall s c).1 (effs ++ (NodeOTelService.stepCall s c).2)
    ∧ (NodeOTelService.stepCall s c).1.ready = true := by
  obtain ⟨h1, h2, h3⟩ := hinv
  cases c with
  | startSpan name =>
    have hstep : NodeOTelService.stepCall s (.startSpan name) = (s, [.spanStarted name]) := by
      simp [NodeOTelService.stepCall, NodeOTelService.startSpan, hready]
    rw [hstep]
    have hpairs : createdPairs (effs ++ [.spanStarted name]) = createdPairs effs := by
      simp [createdPairs, List.filterMap_append]
    refine ⟨⟨?_, ?_, ?_⟩, hready⟩
    · rw [hpairs]; exact h1
    · rw [hpairs]; exact h2
    · rw [hpairs]; exact h3
  | emitLogRecord body =>
    have hstep : NodeOTelService.stepCall s (.emitLogRecord body) = (s, [.logEmit body]) := by
      simp [NodeOTelService.stepCall, NodeOTelService.emitLogRecord, hready]
    rw [hstep]
    have hpairs : createdPairs (effs ++ [.logEmit body]) = createdPairs effs := by
      simp [createdPairs, List.filterMap_append]
    refine ⟨⟨?_, ?_, ?_⟩, hready⟩
    · rw [hpairs]; exact h1
    · rw [hpairs]; exact h2
    · rw [hpairs]; exact h3
  | recordMetric name value =>
    by_cases hc : name ∈ s.histograms
    · have hc' : s.histograms.contains name = true := List.elem_iff.mpr hc
      have hstep : NodeOTelService.stepCall s (.recordMetric name value)
          = (s, [.histogramRecord name value]) := by
        simp [NodeOTelService.stepCall, NodeOTelService.recordMetric, hready, hc', hc]
      rw [hstep]
      have hpairs : createdPairs (effs ++ [.histogramRecord name value])
          = createdPairs effs := by
        simp [createdPairs, List.filterMap_append]
      refine ⟨⟨?_, ?_, ?_⟩, hready⟩
      · rw [hpairs]; exact h1
      · rw [hpairs]; exact h2
      · rw [hpairs]; exact h3
    · have hc' : s.histograms.contains name = false := by simpa using hc
      have hstep : NodeOTelService.stepCall s (.recordMetric name value)
          = ({ s with histograms := s.histograms ++ [name] },
             [.createInstrument name .histogram, .histogramRecord name value]) := by
        simp [NodeOTelService.stepCall, NodeOTelService.recordMetric, hready, hc', hc]
      rw [hstep]
      have hpairs : createdPairs
            (effs ++ [.createInstrument name .histogram, .histogramRecord name value])
          = createdPairs effs ++ [(name, InstrumentKind.histogram)] := by
        simp [createdPairs, List.filterMap_append]
      refine ⟨⟨?_, ?_, ?_⟩, hready⟩
      · intro n hn
        rw [hpairs] at hn
        rcases List.mem_append.mp hn with hold | hnew
        · exact List.mem_append_left _ (h1 n hold)
        · simp only [List.mem_singleton, Prod.mk.injEq] at hnew
          exact List.mem_append_right _ (by simp [hnew.1])
      · intro n hn
        rw [hpairs] at hn
        rcases List.mem_append.mp hn with hold | hnew
        · exact h2 n hold
        · simp at hnew
      · rw [hpairs]
        rw [List.nodup_append]
        refine ⟨h3, by simp, ?_⟩
        intro p hp hq
        simp only [List.mem_singleton] at hq
        subst hq
        exact hc (h1 name hp)
  | incrementCounter name value =>
    by_cases hc : name ∈ s.counters
    · have hc' : s.counters.contains name = true := List.elem_iff.mpr hc
      have hstep : NodeOTelService.stepCall s (.incrementCounter name value)
          = (s, [.counterAdd name value]) := by
        simp [NodeOTelService.stepCall, NodeOTelService.incrementCounter, hready, hc', hc]
      rw [hstep]
      have hpairs : createdPairs (effs ++ [.counterAdd name value])
          = createdPairs effs := by
        simp [createdPairs, List.filterMap_append]
      refine ⟨⟨?_, ?_, ?_⟩, hready⟩
      · rw [hpairs]; exact h1
      · rw [hpairs]; exact h2
      · rw [hpairs]; exact h3
    · have hc' : s.counters.contains name = false := by simpa using hc
      have hstep : NodeOTelService.stepCall s (.incrementCounter name value)
          = ({ s with counters := s.counters ++ [name] },
             [.createInstrument name .counter, .counterAdd name value]) := by
        simp [NodeOTelService.stepCall, NodeOTelService.incrementCounter, hready, hc', hc]
      rw [hstep]
      have hpairs : createdPairs
            (effs ++ [.createInstrument name .counter, .counterAdd name value])
          = createdPairs effs ++ [(name, InstrumentKind.counter)] := by
        simp [createdPairs, List.filterMap_append]
      refine ⟨⟨?_, ?_, ?_⟩, hready⟩
      · intro n hn
        rw [hpairs] at hn
        rcases List.mem_append.mp hn with hold | hnew
        · exact h1 n hold
        · simp at hnew
      · intro n hn
        rw [hpairs] at hn
        rcases List.mem_append.mp hn with hold | hnew
        · exact List.mem_append_left _ (h2 n hold)
        · simp only [List.mem_singleton, Prod.mk.injEq] at hnew
          exact List.mem_append_right _ (by simp [hnew.1])
      · rw [hpairs]
        rw [List.nodup_append]
        refine ⟨h3, by simp, ?_⟩
        intro p hp hq
        simp only [List.mem_singleton] at hq
        subst hq
        exact hc (h2 name hp)

/-- A whole call sequence from a ready state preserves the cache
invariant. -/
theorem cacheInv_applyCalls (calls : List NodeOTelService.Call) :
    ∀ (s : ServiceState) (effs : List Effect), s.ready = true → CacheInv s effs →
    CacheInv (NodeOTelService.applyCalls s calls).1
      (effs ++ (NodeOTelService.applyCalls s calls).2) := by
  induction calls with
  | nil => intro s effs _ hinv; simpa [NodeOTelService.applyCalls] using hinv
  | cons c rest ih =>
    intro s effs hready hinv
    have hstep := cacheInv_step s c effs hready hinv
    rcases hsc : NodeOTelService.stepCall s c with ⟨s1, e1⟩
    rw [hsc] at hstep
    have := ih s1 (effs ++ e1) hstep.2 hstep.1
    simpa [NodeOTelService.applyCalls, hsc, List.append_assoc] using this

/-- C7 counterexample: from a fresh ready service, `recordMetric "m"`
followed by `incrementCounter "m"` creates TWO instruments named `"m"`,
first a histogram and then a counter — the caches are per kind, so an
instrument IS created with a different kind for a name that already has
one, against the claim. -/
theorem C7_cross_kind_counterexample :
    createdPairs (NodeOTelService.applyCalls readyState
        [.recordMetric "m" 1, .incrementCounter "m" 1]).2
      = [("m", .histogram), ("m", .counter)]
    ∧ ¬(∀ p ∈ createdPairs (NodeOTelService.applyCalls readyState
          [.recordMetric "m" 1, .incrementCounter "m" 1]).2,
        ∀ q ∈ createdPairs (NodeOTelService.applyCalls readyState
          [.recordMetric "m" 1, .incrementCounter "m" 1]).2,
        p.1 = q.1 → p.2 = q.2) :=
  ⟨by decide, by decide⟩

/-- C7 (amended): within each kind the instrument cache is lazy and
idempotent per name — the first `recordMetric` for a name creates its
histogram and later `recordMetric`s reuse it, the first `incrementCounter`
creates its counter and later `incrementCounter`s reuse it, and along any
ready-state call sequence no (name, kind) instrument is ever created
twice; a name used by both operations, however, receives one instrument of
each kind. -/
theorem C7_metric_instrument_cache (s : ServiceState) (name : String) (value : Int)
    (hready : s.ready = true) :
    (name ∈ s.histograms →
      NodeOTelService.recordMetric s name value = (s, [.histogramRecord name value]))
    ∧ (name ∉ s.histograms →
      NodeOTelService.recordMetric s name value
        = ({ s with histograms := s.histograms ++ [name] },
           [.createInstrument name .histogram, .histogramRecord name value]))
    ∧ (name ∈ s.counters →
      NodeOTelService.incrementCounter s name value = (s, [.counterAdd name value]))
    ∧ (name ∉ s.counters →
      NodeOTelService.incrementCounter s name value
        = ({ s with counters := s.counters ++ [name] },
           [.createInstrument name .counter, .counterAdd name value]))
    ∧ (∀ calls : List NodeOTelService.Call,
        (createdPairs (NodeOTelService.applyCalls readyState calls).2).Nodup) := by
  refine ⟨fun h => ?_, fun h => ?_, fun h => ?_, fun h => ?_, fun calls => ?_⟩
  · simp [NodeOTelService.recordMetric, hready, h]
  · have h' : s.histograms.contains name = false := by simpa using h
    simp [NodeOTelService.recordMetric, hready, h', h]
  · simp [NodeOTelService.incrementCounter, hready, h]
  · have h' : s.counters.contains name = false := by simpa using h
    simp [NodeOTelService.incrementCounter, hready, h', h]
  · have hinv := cacheInv_applyCalls calls readyState []
      rfl ⟨by simp [createdPairs], by simp [createdPairs], by simp [createdPairs]⟩
    simpa using hinv.2.2

/-- Witness for C7: the first `recordMetric` on a fresh ready service
creates the histogram. -/
theorem C7_metric_instrument_cache_witness :
    readyState.ready = true
    ∧ NodeOTelService.recordMetric readyState "m" 2
      = ({ readyState with histograms := readyState.histograms ++ ["m"] },
         [.createInstrument "m" .histogram, .histogramRecord "m" 2]) :=
  ⟨rfl, (C7_metric_instrument_cache readyState "m" 2 rfl).2.1 (by decide)⟩

/-- C8 counterexample: the disabled no-op service's `startActiveSpan`
returns `fn(noopSpan)` directly — it never calls `end()` on the handle it
passed to the callback (0 calls, not the exactly-once the claim demands for
every variant). -/
theorem C8_noop_never_ends_counterexample :
    (NoopOTelService.startActiveSpan fnPure).2.count SpanOp.endSpan = 0
    ∧ ¬(NoopOTelService.startActiveSpan fnPure).2.count SpanOp.endSpan = 1 :=
  ⟨by decide, by decide⟩

/-- C8 (amended): in `NodeOTelService` (both before readiness and with a
live tracer) `startActiveSpan` invokes the callback with a handle and calls
that handle's `end()` exactly once on every exit path — normal return or
thrown error alike — while preserving the callback's outcome; the disabled
no-op variant invokes the callback with the shared no-op handle and returns
its outcome but never itself calls `end()` (every operation on that handle
is a no-op anyway). -/
theorem C8_startActiveSpan_end_once (T : Type) (ready : Bool) (fn : SpanFn T) :
    NodeOTelService.startActiveSpan ready fn = (fn.outcome, fn.ops ++ [SpanOp.endSpan])
    ∧ NoopOTelService.startActiveSpan fn = (fn.outcome, fn.ops)
    ∧ (fn.ops ++ [SpanOp.endSpan]).count SpanOp.endSpan
        = fn.ops.count SpanOp.endSpan + 1 := by
  refine ⟨?_, rfl, ?_⟩
  · cases ready <;> rfl
  · simp [List.count_append]

/-- The diagnostic callback returns the inner result unchanged. -/
theorem exportCallback_passes_result (t : String) (st : DiagState) (n : Nat)
    (r : ExportResult) :
    (DiagnosticSpanExporter.exportCallback t st n r).2.2 = r := by
  unfold DiagnosticSpanExporter.exportCallback
  (repeat' split) <;> rfl

/-- After the first success is logged, no further info line is emitted. -/
theorem runExports_no_info_after_success (inner : List ReadableSpan → ExportResult)
    (t : String) (batches : List (List ReadableSpan)) :
    ((DiagnosticSpanExporter.runExports inner t ⟨true⟩ batches).2.filter DiagLog.isInfo)
      = [] := by
  induction batches with
  | nil => rfl
  | cons b rest ih =>
    by_cases hc : (inner b).code = 0 <;>
      simp [DiagnosticSpanExporter.runExports, DiagnosticSpanExporter.exportSpans,
        DiagnosticSpanExporter.exportCallback, hc, List.filter_append, ih, DiagLog.isInfo]

/-- From a fresh wrapper, exactly one info line is emitted, at the first
successful export, carrying the exporter kind and that batch's span
count. -/
theorem runExports_info_on_first_success (inner : List ReadableSpan → ExportResult)
    (t : String) (batches : List (List ReadableSpan)) :
    ((DiagnosticSpanExporter.runExports inner t ⟨false⟩ batches).2.filter DiagLog.isInfo)
      = (match batches.find? (fun b => (inner b).code == 0) with
         | some b => [DiagLog.info t b.length]
         | none => []) := by
  induction batches with
  | nil => rfl
  | cons b rest ih =>
    by_cases hc : (inner b).code = 0
    · simp [DiagnosticSpanExporter.runExports, DiagnosticSpanExporter.exportSpans,
        DiagnosticSpanExporter.exportCallback, hc, List.filter_append,
        runExports_no_info_after_success, DiagLog.isInfo, List.find?]
    · have hb : ((inner b).code == 0) = false := by simpa using hc
      simp [DiagnosticSpanExporter.runExports, DiagnosticSpanExporter.exportSpans,
        DiagnosticSpanExporter.exportCallback, hc, hb, List.filter_append, ih,
        DiagLog.isInfo, List.find?]

/-- Every failed export emits one warning carrying the exporter kind and
the inner error, whatever the wrapper's state. -/
theorem runExports_warn_on_failure (inner : List ReadableSpan → ExportResult)
    (t : String) (batches : List (List ReadableSpan)) :
    ∀ st : DiagState,
    ((DiagnosticSpanExporter.runExports inner t st batches).2.filter DiagLog.isWarn)
      = (batches.filter (fun b => !((inner b).code == 0))).map
          (fun b => DiagLog.warn t (inner b).error) := by
  induction batches with
  | nil => intro st; rfl
  | cons b rest ih =>
    intro st
    by_cases hc : (inner b).code = 0
    · by_cases hf : st.firstSuccessLogged <;>
        simp [DiagnosticSpanExporter.runExports, DiagnosticSpanExporter.exportSpans,
          DiagnosticSpanExporter.exportCallback, hc, hf, List.filter_append, ih,
          DiagLog.isWarn]
    · simp [DiagnosticSpanExporter.runExports, DiagnosticSpanExporter.exportSpans,
        DiagnosticSpanExporter.exportCallback, hc, List.filter_append, ih,
        DiagLog.isWarn]

/-- C9: the wrapper delegates each export to the inner exporter and hands
the inner result to its caller unchanged; over any call sequence from a
fresh wrapper it logs exactly one info line — at the first successful
export, with exporter kind and span count — and none on later successes;
it logs one warning (kind and error) for every failed export; and it
forwards `shutdown`/`forceFlush` to the inner exporter's methods verbatim,
substituting a fresh resolved promise only when the inner method is
absent. -/
theorem C9_diagnostic_wrapper :
    (∀ (inner : List ReadableSpan → ExportResult) (t : String) (st : DiagState)
        (spans : List ReadableSpan),
      (DiagnosticSpanExporter.exportSpans inner t st spans).2.2 = inner spans)
    ∧ (∀ (inner : List ReadableSpan → ExportResult) (t : String)
        (batches : List (List ReadableSpan)),
      ((DiagnosticSpanExporter.runExports inner t ⟨false⟩ batches).2.filter DiagLog.isInfo)
        = (match batches.find? (fun b => (inner b).code == 0) with
           | some b => [DiagLog.info t b.length]
           | none => []))
    ∧ (∀ (inner : List ReadableSpan → ExportResult) (t : String) (st : DiagState)
        (batches : List (List ReadableSpan)),
      ((DiagnosticSpanExporter.runExports inner t st batches).2.filter DiagLog.isWarn)
        = (batches.filter (fun b => !((inner b).code == 0))).map
            (fun b => DiagLog.warn t (inner b).error))
    ∧ (∀ (i : InnerLifecycle) (tok : Nat), i.shutdownPromise = some tok →
        DiagnosticSpanExporter.shutdown i = .fromInner tok)
    ∧ (∀ i : InnerLifecycle, i.shutdownPromise = none →
        DiagnosticSpanExporter.shutdown i = .freshResolved)
    ∧ (∀ (i : InnerLifecycle) (tok : Nat), i.forceFlushPromise = some tok →
        DiagnosticSpanExporter.forceFlush i = .fromInner tok)
    ∧ (∀ i : InnerLifecycle, i.forceFlushPromise = none →
        DiagnosticSpanExporter.forceFlush i = .freshResolved) := by
  refine ⟨fun inner t st spans => exportCallback_passes_result t st spans.length (inner spans),
    runExports_info_on_first_success,
    fun inner t st batches => runExports_warn_on_failure inner t batches st,
    fun i tok h => ?_, fun i h => ?_, fun i tok h => ?_, fun i h => ?_⟩ <;>
    simp [DiagnosticSpanExporter.shutdown, DiagnosticSpanExporter.forceFlush, h]

/-- Witness for C9: the wrapper forwards `shutdown` to the inner
exporter's method. -/
theorem C9_diagnostic_wrapper_witness :
    sampleLifecycle.shutdownPromise = some 7
    ∧ DiagnosticSpanExporter.shutdown sampleLifecycle = .fromInner 7 :=
  ⟨rfl, C9_diagnostic_wrapper.2.2.2.1 sampleLifecycle 7 rfl⟩

end OTel
